import Mathlib

/-!
Shallow embedding of the sportswear market tracker (src/app.py).

Modelling conventions:
* Python floats are modelled as `ℚ`; upstream calls that can raise are
  modelled as `Option`-valued inputs (`none` = the call raised, or the
  library returned no data).
* A Python dict of snapshot attributes (`yf.Ticker(t).info`) is modelled
  by the `Info` structure; a missing key is `none`.  `safe(d, k)` from the
  source is the corresponding field projection.
* Python truthiness on strings (`a or b`) is `pyor` / `pyorStr`,
  on numbers (`if x`) it is an explicit `= 0` test.
* Each access to an upstream endpoint is an independent outcome in the
  environment, since every call may independently fail (app.py wraps each
  one in its own try/except).
-/

/-- Snapshot attribute bundle returned by the upstream `info` call
(only the keys app.py reads).  A missing key is `none`. -/
structure Info where
  financialCurrency : Option String
  currency : Option String
  marketCap : Option ℚ
  trailingPE : Option ℚ
  currentPrice : Option ℚ
  previousClose : Option ℚ
  totalRevenue : Option ℚ

/-- The empty snapshot dict `{}` (every lookup misses). -/
def emptyInfo : Info := ⟨none, none, none, none, none, none, none⟩

/-- Python `a or b` for an optional string `a` (None and "" are falsy). -/
def pyor (a : Option String) (b : String) : String :=
  match a with
  | some s => if s = "" then b else s
  | none => b

/-- Python `a or b` for a plain string `a` ("" is falsy). -/
def pyorStr (a b : String) : String :=
  if a = "" then b else a

/-- One character of Python `str.upper()` (ASCII; the strings app.py
upper-cases are currency codes). -/
def upperChar (ch : Char) : Char :=
  if 'a' ≤ ch ∧ ch ≤ 'z' then Char.ofNat (ch.toNat - 32) else ch

/-- Python `str.upper()` over the character list. -/
def upperS (s : String) : String := String.mk (s.data.map upperChar)

/-- Whitespace test of Python `str.strip()`. -/
def isSpaceChar (ch : Char) : Bool :=
  decide (ch = ' ' ∨ ch = '\t' ∨ ch = '\n' ∨ ch = '\r')

/-- Python `str.strip()`: drop leading and trailing whitespace. -/
def pyStrip (s : String) : String :=
  String.mk (((s.data.dropWhile isSpaceChar).reverse.dropWhile isSpaceChar).reverse)

/-- app.py `clean_ticker`: `t.strip().replace("$", "")`.  Replacing the
one-character pattern `"$"` by `""` removes every dollar sign. -/
def clean_ticker (t : String) : String :=
  String.mk ((pyStrip t).data.filter (fun ch => decide (ch ≠ '$')))

/-- Roster of app.py `COMPANIES` (display name, raw ticker). -/
def COMPANIES : List (String × String) :=
  [("Nike", "NKE"),
   ("Adidas", "ADS.DE"),
   ("Anta Sports", "2020.HK"),
   ("Lululemon Athletica", "LULU"),
   ("Amer Sports", "AS"),
   ("ASICS", "7936.T"),
   ("On Holding (On Running)", "ONON"),
   ("Deckers (HOKA, UGG)", "DECK"),
   ("Skechers", "SKX"),
   ("JD Sports Fashion", "JD.L"),
   ("Li Ning", "2331.HK"),
   ("VF Corporation (Vans)", "VFC"),
   ("Puma", "PUM.DE"),
   ("Columbia Sportswear", "COLM"),
   ("Yonex", "7906.T"),
   ("Under Armour (Class A)", "UAA"),
   ("Fila Holdings", "081660.KS"),
   ("361 Degrees", "1361.HK"),
   ("Mizuno", "8022.T"),
   ("BasicNet (Kappa)", "BAN.MI")]

/-- First-match association-list lookup (Python dict read on distinct keys). -/
def slookup (l : List (String × α)) (k : String) : Option α :=
  (l.find? (fun p => p.1 = k)).map Prod.snd

/-- The set comprehension in `get_fx_rates`:
`sorted({c for c in codes if c and c != "USD"})` — keep truthy non-USD
codes, deduplicate, sort ascending. -/
def fxFilter (codes : List String) : List String :=
  List.insertionSort (· ≤ ·) ((codes.filter (fun c => decide (c ≠ "" ∧ c ≠ "USD"))).dedup)

/-- app.py `get_fx_rates` (lines 50-60), with the upstream FX close
modelled by `fxEnv : code ↦ Option rate` (`none` = the history call raised
or returned an empty series).  Starts from `{"USD": 1.0}` and adds each
successfully fetched code; failures are silently skipped. -/
def get_fx_rates (codes : List String) (fxEnv : String → Option ℚ) :
    List (String × ℚ) :=
  ("USD", 1) :: (fxFilter codes).filterMap (fun c => (fxEnv c).map (fun r => (c, r)))

/-- The cache key `st.cache_data` uses for `get_fx_rates`: the argument
value as passed (streamlit hashes the function inputs, and app.py passes
the raw `currs` list; deduplication only happens inside the body). -/
def fx_cache_key (codes : List String) : List String := codes

/-- One key attempt of the loop in `revenue_ttm`: if `key` is in the
quarterly-financials index, drop missing entries and, when anything is
left, sum the first (most recent) four values. -/
def tryKey (rows : List (String × List (Option ℚ))) (key : String) : Option ℚ :=
  match slookup rows key with
  | none => none
  | some series =>
    if (series.filterMap id) = [] then none
    else some (((series.filterMap id).take 4).sum)

/-- The key loop of `revenue_ttm`: try "Total Revenue", then "TotalRevenue". -/
def qfRevenue (rows : List (String × List (Option ℚ))) : Option ℚ :=
  match tryKey rows "Total Revenue" with
  | some v => some v
  | none => tryKey rows "TotalRevenue"

/-- app.py `revenue_ttm` (lines 62-77).  `qf` models
`tkr.quarterly_financials` as rows (line item name ↦ newest-first series
with missing cells); `none` = the call raised or returned `None`.
`oi` models the `tkr.info` read in the fallback (`none` = it raised). -/
def revenue_ttm (qf : Option (List (String × List (Option ℚ))))
    (oi : Option Info) : Option ℚ :=
  match qf with
  | some rows =>
    if rows = [] then oi.bind Info.totalRevenue
    else
      match qfRevenue rows with
      | some v => some v
      | none => oi.bind Info.totalRevenue
  | none => oi.bind Info.totalRevenue

/-- Fallback branch of `daily_pct_change`: `info.previousClose` /
`info.currentPrice` with the Python guard `prev and last and prev > 0`
and the same ±50 outlier filter.  `oi = none` models the `tkr.info` call
raising (caught by the outer except, giving `None`). -/
def dpc_fallback (oi : Option Info) : Option ℚ :=
  match oi with
  | none => none
  | some i =>
    match i.previousClose, i.currentPrice with
    | some p, some l =>
      if p ≠ 0 ∧ l ≠ 0 ∧ 0 < p then
        if 50 < |(l - p) / p * 100| then none else some ((l - p) / p * 100)
      else none
    | _, _ => none

/-- app.py `daily_pct_change` (lines 79-104).  `hist` models
`tkr.history(period="2d")["Close"].dropna()` (`none` = the call raised);
the primary path uses the last two closes when at least two exist and the
previous close is positive, otherwise control falls through to the
snapshot fallback. -/
def daily_pct_change (hist : Option (List ℚ)) (oi : Option Info) : Option ℚ :=
  match hist with
  | none => none
  | some closes =>
    match closes.drop (closes.length - 2) with
    | [prev, last] =>
      if 0 < prev then
        if 50 < |(last - prev) / prev * 100| then none
        else some ((last - prev) / prev * 100)
      else dpc_fallback oi
    | _ => dpc_fallback oi

/-- app.py line 136: `rate = fx.get(currency, 1.0)`. -/
def resolve_rate (fx : List (String × ℚ)) (currency : String) : ℚ :=
  match slookup fx currency with
  | some r => r
  | none => 1

/-- app.py lines 137-138: `float(nat) * rate if nat else None`
(Python truthiness: both a missing and a zero native value give `None`). -/
def convert_usd (nat : Option ℚ) (rate : ℚ) : Option ℚ :=
  match nat with
  | some v => if v = 0 then none else some (v * rate)
  | none => none

/-- app.py line 113 (currency prefetch loop body): the per-entity default
currency, `"USD"` when the prefetch `info` call raised. -/
def prefetch_currency (oi : Option Info) : String :=
  match oi with
  | none => "USD"
  | some i => upperS (pyor i.financialCurrency (pyor i.currency "USD"))

/-- app.py line 130: the native currency reported for an entity, given its
main-loop snapshot `info` and the prefetched default `cur`. -/
def entity_currency (info : Info) (cur : String) : String :=
  upperS (pyor info.financialCurrency (pyor info.currency (pyorStr cur "USD")))

/-- Upstream outcomes for one ticker symbol during a fetch cycle.  Each
field is one independent upstream call made by `fetch_data` (app.py makes
each of these as a separate request, and any of them can fail on its
own):
* `prefetchInfo` — the `info` call of the currency-prefetch loop (line 112),
* `mainInfo` — the main-loop `info` call (line 126),
* `qf` — `quarterly_financials` inside `revenue_ttm`,
* `revInfo` — the `info` call of the `revenue_ttm` fallback,
* `hist2` — the two-day close history inside `daily_pct_change`,
* `dpcInfo` — the `info` call of the `daily_pct_change` fallback,
* `hist1` — the one-day close history of the last-price fallback. -/
structure EntityEnv where
  prefetchInfo : Option Info
  mainInfo : Option Info
  qf : Option (List (String × List (Option ℚ)))
  revInfo : Option Info
  hist2 : Option (List ℚ)
  dpcInfo : Option Info
  hist1 : Option (List ℚ)

/-- An `EntityEnv` in which every upstream call fails. -/
def failEnt : EntityEnv := ⟨none, none, none, none, none, none, none⟩

/-- One assembled report row (app.py lines 152-162). `updatedUTC` is the
per-row assembly timestamp. -/
structure Row where
  company : String
  ticker : String
  nativeCurrency : String
  lastPrice : Option ℚ
  marketCapUSD : Option ℚ
  revenueTTMUSD : Option ℚ
  peRatio : Option ℚ
  dailyPctChange : Option ℚ
  updatedUTC : ℕ
deriving DecidableEq

/-- The advisory note app.py appends for Skechers (line 150). -/
def skxNote : String :=
  "SKX: corporate action/delisting risk may limit recent quotes; data may be incomplete."

/-- app.py last-price logic (lines 140-147): snapshot `currentPrice`,
else the last close of a one-day history fetch. -/
def last_price (info : Info) (hist1 : Option (List ℚ)) : Option ℚ :=
  match info.currentPrice with
  | some p => some p
  | none =>
    match hist1 with
    | some closes => closes.getLast?
    | none => none

/-- One iteration of the main loop of `fetch_data` (app.py lines 120-163):
builds the report row for one entity, plus the advisory notes it appends.
`cur` is the prefetched default currency, `fx` the resolved rate table,
`ts` the row timestamp. -/
def build_entry (name sym cur : String) (e : EntityEnv)
    (fx : List (String × ℚ)) (ts : ℕ) : Row × List String :=
  let info : Info := e.mainInfo.getD emptyInfo
  let currency := entity_currency info cur
  let rate := resolve_rate fx currency
  let mktcap_usd := convert_usd info.marketCap rate
  let rev_usd := convert_usd (revenue_ttm e.qf e.revInfo) rate
  let pct := daily_pct_change e.hist2 e.dpcInfo
  let row : Row :=
    ⟨name, sym, currency, last_price info e.hist1, mktcap_usd, rev_usd,
     info.trailingPE, pct, ts⟩
  (row, if name = "Skechers" ∧ (pct = none ∨ mktcap_usd = none) then [skxNote] else [])

/-- The currency-prefetch loop of `fetch_data` (app.py lines 108-115):
one default currency per roster entry, in roster order. -/
def prefetch_currs (env : String → EntityEnv) : List String :=
  (COMPANIES.map (fun p => clean_ticker p.2)).map
    (fun t => prefetch_currency (env t).prefetchInfo)

/-- The iterations of the main loop of `fetch_data` (app.py lines
118-163): zip the roster with the prefetched currencies and build one
(row, notes) pair per entry.  `clock i` is the timestamp taken while
constructing row `i`. -/
def entries_of (env : String → EntityEnv) (fx : List (String × ℚ))
    (currs : List String) (clock : ℕ → ℕ) : List (Row × List String) :=
  ((COMPANIES.zip currs).enum).map
    (fun q => build_entry q.2.1.1 (clean_ticker q.2.1.2) q.2.2
      (env (clean_ticker q.2.1.2)) fx (clock q.1))

/-- The rows and accumulated notes of the main loop of `fetch_data`. -/
def assemble (env : String → EntityEnv) (fx : List (String × ℚ))
    (currs : List String) (clock : ℕ → ℕ) : List Row × List String :=
  ((entries_of env fx currs clock).map Prod.fst,
   ((entries_of env fx currs clock).map Prod.snd).flatten)

/-- app.py `fetch_data` (lines 106-166) up to the final sort: prefetch
currencies, resolve FX rates once for the whole set, then assemble the
rows and notes. -/
def fetch_rows (env : String → EntityEnv) (fxEnv : String → Option ℚ)
    (clock : ℕ → ℕ) : List Row × List String :=
  assemble env (get_fx_rates (prefetch_currs env) fxEnv) (prefetch_currs env) clock

/-- Adjacent-pair check that `out` is ordered descending under `key`
(`getD 0` is only read on rows whose key is present). -/
def desc_by (key : α → Option ℚ) : List α → Bool
  | [] => true
  | [_] => true
  | a :: b :: rest =>
    decide ((key b).getD 0 ≤ (key a).getD 0) && desc_by key (b :: rest)

/-- All ways to insert `a` into one position of a list. -/
def insertEverywhere (a : α) : List α → List (List α)
  | [] => [[a]]
  | b :: l => (a :: b :: l) :: (insertEverywhere a l).map (b :: ·)

/-- All permutations of a list (structural enumeration; see
`mem_perms_iff` below for the agreement with `List.Perm`). -/
def perms : List α → List (List α)
  | [] => [[]]
  | a :: l => ((perms l).map (insertEverywhere a)).flatten

/-- The outputs admitted by
`pd.DataFrame(rows).sort_values("Market Cap (USD)", ascending=False, na_position="last")`
(app.py line 165).  pandas guarantees: the output is a permutation of the
input; all rows with a present key precede all rows with an absent key;
the present block is in descending key order; the absent rows keep their
original relative order (pandas `nargsort` appends the NaN positions in
index order).  The default `kind="quicksort"` is documented as NOT
stable, so the relative order of rows with equal present keys is not
determined; this model therefore admits every permutation meeting the
guarantees above. -/
def pandas_sort_values [DecidableEq α] (key : α → Option ℚ)
    (input : List α) : List (List α) :=
  (perms input).filter (fun out =>
    decide (out = out.filter (fun r => (key r).isSome)
              ++ out.filter (fun r => (key r).isNone)) &&
    decide (out.filter (fun r => (key r).isNone)
              = input.filter (fun r => (key r).isNone)) &&
    desc_by key (out.filter (fun r => (key r).isSome)))

/-- Full `fetch_data` result relation: `df` is a sorted version of the
assembled rows as app.py line 165 produces it. -/
def fetch_report (env : String → EntityEnv) (fxEnv : String → Option ℚ)
    (clock : ℕ → ℕ) (df : List Row) : Prop :=
  df ∈ pandas_sort_values Row.marketCapUSD (fetch_rows env fxEnv clock).1

/-- The 30-minute TTL (in seconds) of both `st.cache_data` decorators. -/
def TTL : ℕ := 60 * 30

/-- The two process-wide caches: the single-slot `fetch_data` cache (its
key is constant — the function takes no arguments) and the keyed
`get_fx_rates` cache.  Each entry stores the value and the time it was
stored. -/
structure Caches where
  report : Option ((List Row × List String) × ℕ)
  fx : List (List String × (List (String × ℚ) × ℕ))

/-- `get_fx_rates` as called through its `st.cache_data` wrapper: return
the cached table when an unexpired entry exists for this exact argument
list, otherwise compute and store. -/
def get_fx_rates_cached (codes : List String) (fxEnv : String → Option ℚ)
    (c : Caches) (t : ℕ) : List (String × ℚ) × Caches :=
  match c.fx.find? (fun e => decide (e.1 = fx_cache_key codes)) with
  | some e =>
    if t < e.2.2 + TTL then (e.2.1, c)
    else
      (get_fx_rates codes fxEnv,
       ⟨c.report, (fx_cache_key codes, get_fx_rates codes fxEnv, t) :: c.fx⟩)
  | none =>
    (get_fx_rates codes fxEnv,
     ⟨c.report, (fx_cache_key codes, get_fx_rates codes fxEnv, t) :: c.fx⟩)

/-- A cache-missing `fetch_data` call: run the pipeline at time `t`
(stamping row `i` at `t + i`, modelling the per-row `datetime.now`),
store the result at `t`, and keep whatever the inner `get_fx_rates` call
did to the FX cache. -/
def fetch_data_compute (env : String → EntityEnv) (fxEnv : String → Option ℚ)
    (c : Caches) (t : ℕ) : (List Row × List String) × Caches :=
  (assemble env (get_fx_rates_cached (prefetch_currs env) fxEnv c t).1
     (prefetch_currs env) (fun i => t + i),
   ⟨some (assemble env (get_fx_rates_cached (prefetch_currs env) fxEnv c t).1
       (prefetch_currs env) (fun i => t + i), t),
    (get_fx_rates_cached (prefetch_currs env) fxEnv c t).2.fx⟩)

/-- `fetch_data` as called through its `st.cache_data` wrapper: return the
cached (rows, notes) when an unexpired entry exists, otherwise compute. -/
def fetch_data_cached (env : String → EntityEnv) (fxEnv : String → Option ℚ)
    (c : Caches) (t : ℕ) : (List Row × List String) × Caches :=
  match c.report with
  | some e =>
    if t < e.2 + TTL then (e.1, c)
    else fetch_data_compute env fxEnv c t
  | none => fetch_data_compute env fxEnv c t

/-- The refresh button handler (app.py lines 177-180): clear both caches. -/
def force_refresh : Caches → Caches :=
  fun _ => ⟨none, []⟩

/-- A snapshot whose only attribute is `financialCurrency = "EUR"`. -/
def eurInfo : Info := ⟨some "EUR", none, none, none, none, none, none⟩

/-- Concrete fetch-cycle environment: Adidas' prefetch snapshot reports
EUR; Nike's prefetch call fails but its main-loop snapshot reports EUR
and a market cap of 1,000,000; every other upstream call fails. -/
def envA : String → EntityEnv := fun t =>
  if t = "ADS.DE" then ⟨some eurInfo, none, none, none, none, none, none⟩
  else if t = "NKE" then
    ⟨none, some ⟨some "EUR", none, some 1000000, none, none, none, none⟩,
     none, none, none, none, none⟩
  else failEnt

/-- `envA` with exactly one more upstream failure: Adidas' currency
prefetch also fails.  Everything else is identical to `envA`. -/
def envB : String → EntityEnv := fun t =>
  if t = "ADS.DE" then failEnt else envA t

/-- Concrete FX upstream: only the EURUSD pair resolves, at 1.1. -/
def fxEnvC : String → Option ℚ := fun c =>
  if c = "EUR" then some (11 / 10) else none

/-! ## Theorems -/

/-- Any value produced by the snapshot fallback of `daily_pct_change` has
absolute value at most 50. -/
lemma dpc_fallback_le (oi : Option Info) (v : ℚ)
    (h : dpc_fallback oi = some v) : |v| ≤ 50 := by
  unfold dpc_fallback at h
  split at h
  · exact absurd h (by simp)
  · split at h
    · split at h
      · split at h
        · exact absurd h (by simp)
        · rename_i hlt
          cases h
          exact le_of_not_lt hlt
      · exact absurd h (by simp)
    · exact absurd h (by simp)

/-- Claim C1: `dailyPctChange` is never reported with absolute value
greater than 50 — whatever the two-day history and the snapshot return,
every reported value satisfies `|v| ≤ 50`; and on the claim's example
(previous close 100, last close 200, a raw change of 100%) the result is
absent regardless of the snapshot. -/
theorem daily_pct_change_within_50 :
    (∀ (hist : Option (List ℚ)) (oi : Option Info) (v : ℚ),
       daily_pct_change hist oi = some v → |v| ≤ 50) ∧
    (∀ oi : Option Info, daily_pct_change (some [100, 200]) oi = none) := by
  constructor
  · intro hist oi v h
    unfold daily_pct_change at h
    split at h
    · exact absurd h (by simp)
    · split at h
      · split at h
        · split at h
          · exact absurd h (by simp)
          · rename_i hlt
            cases h
            exact le_of_not_lt hlt
        · exact dpc_fallback_le oi v h
      · exact dpc_fallback_le oi v h
  · intro oi
    have h100 : ((200 : ℚ) - 100) / 100 * 100 = 100 := by norm_num
    simp only [daily_pct_change, List.length_cons, List.length_nil, List.drop, h100]
    norm_num

/-- Witness for C1: a 20% raw change is reported as 20, and the theorem
bounds it by 50. -/
theorem daily_pct_change_within_50_witness :
    daily_pct_change (some [100, 120]) none = some 20 ∧ |(20 : ℚ)| ≤ 50 := by
  have h20 : daily_pct_change (some [100, 120]) none = some 20 := by
    have h : ((120 : ℚ) - 100) / 100 * 100 = 20 := by norm_num
    simp only [daily_pct_change, List.length_cons, List.length_nil, List.drop, h]
    norm_num
  exact ⟨h20, daily_pct_change_within_50.1 (some [100, 120]) none 20 h20⟩

/-- Counterexample to claim C2 as stated: a present native market cap of
exactly 0 is reported as absent, not as `0 × rate = 0.0` (Python
truthiness of `if mktcap_nat`), even though the EUR rate resolves. -/
theorem convert_usd_zero_cex :
    convert_usd (some 0) (resolve_rate [("EUR", 11/10)] "EUR") = none ∧
    (0 : ℚ) * resolve_rate [("EUR", 11/10)] "EUR" = 0 ∧
    convert_usd (some 0) (resolve_rate [("EUR", 11/10)] "EUR")
      ≠ some ((0 : ℚ) * resolve_rate [("EUR", 11/10)] "EUR") := by
  exact ⟨rfl, by norm_num, by simp [convert_usd]⟩

/-- Claim C2 (amended: the native value must also be nonzero): an absent
native value gives an absent USD value; a present nonzero native value is
multiplied by the resolved rate; a currency missing from the rate table
resolves to the pass-through rate 1; and on the claim's example a native
market cap of 1,000,000 in EUR at rate 1.1 converts to 1,100,000, while
with EUR unresolved it passes through as 1,000,000. -/
theorem convert_usd_spec :
    (∀ (fx : List (String × ℚ)) (cur : String),
       convert_usd none (resolve_rate fx cur) = none) ∧
    (∀ (fx : List (String × ℚ)) (cur : String) (v : ℚ), v ≠ 0 →
       convert_usd (some v) (resolve_rate fx cur) = some (v * resolve_rate fx cur)) ∧
    (∀ (fx : List (String × ℚ)) (cur : String), slookup fx cur = none →
       resolve_rate fx cur = 1) ∧
    convert_usd (some 1000000) (resolve_rate [("EUR", 11/10)] "EUR") = some 1100000 ∧
    convert_usd (some 1000000) (resolve_rate [] "EUR") = some 1000000 := by
  refine ⟨fun fx cur => rfl, fun fx cur v hv => by simp [convert_usd, hv],
    fun fx cur h => by simp [resolve_rate, h], ?_, ?_⟩
  · show some ((1000000 : ℚ) * (11/10)) = some 1100000
    norm_num
  · show some ((1000000 : ℚ) * 1) = some 1000000
    norm_num

/-- Witness for C2 (amended): instantiating the nonzero-native and
missing-rate clauses at concrete inputs. -/
theorem convert_usd_spec_witness :
    convert_usd (some 5) (resolve_rate [("EUR", 11/10)] "JPY") = some (5 * resolve_rate [("EUR", 11/10)] "JPY") ∧
    resolve_rate [("EUR", 11/10)] "JPY" = 1 := by
  exact ⟨convert_usd_spec.2.1 [("EUR", 11/10)] "JPY" 5 (by norm_num),
    convert_usd_spec.2.2.1 [("EUR", 11/10)] "JPY" rfl⟩

/-- Claim C10: a fetched native value of exactly 0 converts to an absent
USD value (Python truthiness), indistinguishable from an absent native
value — for every rate. -/
theorem convert_usd_zero_absent :
    ∀ rate : ℚ, convert_usd (some 0) rate = none ∧ convert_usd none rate = none := by
  intro rate
  exact ⟨by simp [convert_usd], rfl⟩

/-- Claim C3: when the quarterly financials are present, non-empty, and
their "Total Revenue" row has at least one non-missing value, the result
is the sum of the four most recent non-missing quarters; if the quarterly
series is unavailable (raised/None) or empty, the single `totalRevenue`
snapshot attribute is used; if both fail, the field is absent. -/
theorem revenue_ttm_spec :
    (∀ (rows : List (String × List (Option ℚ))) (series : List (Option ℚ))
       (oi : Option Info),
       rows ≠ [] → slookup rows "Total Revenue" = some series →
       series.filterMap id ≠ [] →
       revenue_ttm (some rows) oi = some (((series.filterMap id).take 4).sum)) ∧
    (∀ oi, revenue_ttm none oi = oi.bind Info.totalRevenue) ∧
    (∀ oi, revenue_ttm (some []) oi = oi.bind Info.totalRevenue) ∧
    revenue_ttm none none = none := by
  refine ⟨?_, fun oi => rfl, fun oi => rfl, rfl⟩
  intro rows series oi hrows hfind hvals
  simp only [revenue_ttm, qfRevenue, tryKey, hfind, if_neg hrows, if_neg hvals]

/-- Witness for C3: quarters [10, 12, 9, 8, 7] (newest first) give
10 + 12 + 9 + 8 = 39. -/
theorem revenue_ttm_spec_witness :
    revenue_ttm (some [("Total Revenue", [some 10, some 12, some 9, some 8, some 7])]) none
      = some 39 := by
  have h := revenue_ttm_spec.1
    [("Total Revenue", [some 10, some 12, some 9, some 8, some 7])]
    [some 10, some 12, some 9, some 8, some 7] none (by simp) rfl (by simp)
  rw [h]
  norm_num [List.filterMap]

/-- Claim C6: for every input code list (including `[]`) the rate table
maps "USD" to 1.0 — the loop never touches the "USD" entry — and a fetch
failure for a non-USD code leaves that code absent from the table. -/
theorem get_fx_rates_usd :
    ∀ (codes : List String) (fxEnv : String → Option ℚ),
      slookup (get_fx_rates codes fxEnv) "USD" = some 1 ∧
      (∀ c, c ≠ "USD" → fxEnv c = none →
        slookup (get_fx_rates codes fxEnv) c = none) := by
  intro codes fxEnv
  constructor
  · simp [slookup, get_fx_rates, List.find?]
  · intro c hc hnone
    simp only [slookup, get_fx_rates]
    apply Option.map_eq_none'.2
    apply List.find?_eq_none.2
    intro x hx
    simp only [List.mem_cons, List.mem_filterMap] at hx
    simp only [decide_eq_true_eq]
    rcases hx with hx | ⟨a, _, hax⟩
    · subst hx
      exact fun h => hc h.symm
    · cases he : fxEnv a with
      | none => rw [he] at hax; exact absurd hax (by simp)
      | some r =>
        rw [he] at hax
        simp only [Option.map_some', Option.some.injEq] at hax
        subst hax
        intro hxc
        have hac : a = c := hxc
        rw [hac] at he
        rw [hnone] at he
        exact absurd he (by simp)

/-- Witness for C6: with only "EUR" requested and its fetch failing, the
table still maps "USD" to 1 and omits the failed "JPY" code. -/
theorem get_fx_rates_usd_witness :
    slookup (get_fx_rates ["EUR"] (fun _ => none)) "USD" = some 1 ∧
    slookup (get_fx_rates ["EUR"] (fun _ => none)) "JPY" = none := by
  exact ⟨(get_fx_rates_usd ["EUR"] (fun _ => none)).1,
    (get_fx_rates_usd ["EUR"] (fun _ => none)).2 "JPY" (by decide) rfl⟩

/-- The canonicalised code set computed inside `get_fx_rates` depends only
on which truthy non-USD codes occur, not on their multiplicity or order. -/
lemma fxFilter_set_invariant (codes1 codes2 : List String)
    (h : ∀ c, (c ∈ codes1 ∧ c ≠ "" ∧ c ≠ "USD") ↔ (c ∈ codes2 ∧ c ≠ "" ∧ c ≠ "USD")) :
    fxFilter codes1 = fxFilter codes2 := by
  have hmem : ∀ c,
      c ∈ (codes1.filter (fun c => decide (c ≠ "" ∧ c ≠ "USD"))).dedup ↔
      c ∈ (codes2.filter (fun c => decide (c ≠ "" ∧ c ≠ "USD"))).dedup := by
    intro c
    simp only [List.mem_dedup, List.mem_filter, decide_eq_true_eq]
    exact h c
  have hperm : List.Perm (codes1.filter (fun c => decide (c ≠ "" ∧ c ≠ "USD"))).dedup
      (codes2.filter (fun c => decide (c ≠ "" ∧ c ≠ "USD"))).dedup :=
    (List.perm_ext_iff_of_nodup (List.nodup_dedup _) (List.nodup_dedup _)).2 hmem
  unfold fxFilter
  exact List.eq_of_perm_of_sorted
    (((List.perm_insertionSort _ _).trans hperm).trans (List.perm_insertionSort _ _).symm)
    (List.sorted_insertionSort _ _) (List.sorted_insertionSort _ _)

/-- Claim C7 (amended: the computation is set-insensitive, but the cache
is keyed by the raw argument): two code lists over the same truthy
non-USD code set produce the same rate table against the same upstream
responses. -/
theorem get_fx_rates_set_invariant :
    ∀ (codes1 codes2 : List String) (fxEnv : String → Option ℚ),
      (∀ c, (c ∈ codes1 ∧ c ≠ "" ∧ c ≠ "USD") ↔ (c ∈ codes2 ∧ c ≠ "" ∧ c ≠ "USD")) →
      get_fx_rates codes1 fxEnv = get_fx_rates codes2 fxEnv := by
  intro codes1 codes2 fxEnv h
  unfold get_fx_rates
  rw [fxFilter_set_invariant codes1 codes2 h]

/-- Witness for C7 (amended): `["EUR", "EUR"]` and `["EUR"]` yield the
same rate table. -/
theorem get_fx_rates_set_invariant_witness :
    get_fx_rates ["EUR", "EUR"] fxEnvC = get_fx_rates ["EUR"] fxEnvC := by
  exact get_fx_rates_set_invariant ["EUR", "EUR"] ["EUR"] fxEnvC (by intro c; simp)

/-- Counterexample to claim C7 as stated: the `st.cache_data` cache is
keyed by the raw `codes` argument, not by the sorted deduplicated set —
`["EUR", "EUR"]` and `["EUR"]` canonicalise to the same set and compute
the same table, yet occupy different cache entries, so such calls do NOT
hit the same cache entry. -/
theorem fx_cache_key_cex :
    fxFilter ["EUR", "EUR"] = fxFilter ["EUR"] ∧
    fx_cache_key ["EUR", "EUR"] ≠ fx_cache_key ["EUR"] ∧
    get_fx_rates ["EUR", "EUR"] fxEnvC = get_fx_rates ["EUR"] fxEnvC := by
  exact ⟨by decide, by decide, rfl⟩

/-- Counterexample to claim C9 as stated: when the main-loop snapshot has
neither currency attribute, the reported currency is NOT "USD" — the code
falls back to the prefetched per-entity default first, here "EUR" from an
earlier successful prefetch. -/
theorem entity_currency_prefetch_cex :
    entity_currency emptyInfo
      (prefetch_currency (some ⟨some "eur", none, none, none, none, none, none⟩))
      = "EUR" ∧ ("EUR" : String) ≠ "USD" := by
  exact ⟨rfl, by decide⟩

/-- Claim C9 (amended: the fallback chain is financial-reporting
currency, then listing currency, then the prefetched per-entity default,
then "USD", all upper-cased; a total failure of BOTH snapshot fetches
yields "USD"): -/
theorem entity_currency_chain :
    ∀ (i : Info) (cur s : String),
      prefetch_currency none = "USD" ∧
      entity_currency emptyInfo (prefetch_currency none) = "USD" ∧
      (i.financialCurrency = some s → s ≠ "" → entity_currency i cur = upperS s) ∧
      ((i.financialCurrency = none ∨ i.financialCurrency = some "") →
        i.currency = some s → s ≠ "" → entity_currency i cur = upperS s) ∧
      ((i.financialCurrency = none ∨ i.financialCurrency = some "") →
        (i.currency = none ∨ i.currency = some "") → cur ≠ "" →
        entity_currency i cur = upperS cur) := by
  intro i cur s
  refine ⟨rfl, rfl, ?_, ?_, ?_⟩
  · intro hf hs
    simp [entity_currency, pyor, hf, hs]
  · intro hf hc hs
    rcases hf with hf | hf <;> simp [entity_currency, pyor, hf, hc, hs]
  · intro hf hc hcur
    rcases hf with hf | hf <;> rcases hc with hc | hc <;>
      simp [entity_currency, pyor, pyorStr, hf, hc, hcur]

/-- Witness for C9 (amended): a lower-case financial currency "eur" is
reported upper-cased, and with both snapshot currencies falsy the
prefetched default is used. -/
theorem entity_currency_chain_witness :
    entity_currency ⟨some "eur", none, none, none, none, none, none⟩ "USD" = upperS "eur" ∧
    upperS "eur" = "EUR" ∧
    entity_currency ⟨none, some "", none, none, none, none, none⟩ "EUR" = upperS "EUR" := by
  exact ⟨(entity_currency_chain ⟨some "eur", none, none, none, none, none, none⟩ "USD" "eur").2.2.1
      rfl (by decide),
    by decide,
    (entity_currency_chain ⟨none, some "", none, none, none, none, none⟩ "EUR" "x").2.2.2.2
      (Or.inl rfl) (Or.inr rfl) (by decide)⟩

/-- Membership in `insertEverywhere a l` is exactly being `l` with `a`
inserted at one position. -/
lemma mem_insertEverywhere {a : α} :
    ∀ {l out : List α}, out ∈ insertEverywhere a l ↔
      ∃ s t, l = s ++ t ∧ out = s ++ a :: t := by
  intro l
  induction l with
  | nil =>
    intro out
    constructor
    · intro h
      simp only [insertEverywhere, List.mem_singleton] at h
      exact ⟨[], [], rfl, by simp [h]⟩
    · rintro ⟨s, t, hst, hout⟩
      obtain ⟨hs, ht⟩ := List.append_eq_nil.1 hst.symm
      subst hs
      subst ht
      simp [insertEverywhere, hout]
  | cons b l ih =>
    intro out
    constructor
    · intro h
      simp only [insertEverywhere, List.mem_cons, List.mem_map] at h
      rcases h with h | ⟨o, ho, rfl⟩
      · exact ⟨[], b :: l, rfl, by simp [h]⟩
      · obtain ⟨s, t, hst, hout⟩ := ih.1 ho
        exact ⟨b :: s, t, by simp [hst], by simp [hout]⟩
    · rintro ⟨s, t, hst, hout⟩
      cases s with
      | nil =>
        simp only [List.nil_append] at hst hout
        simp [insertEverywhere, hout, hst]
      | cons b1 s1 =>
        simp only [List.cons_append, List.cons.injEq] at hst
        obtain ⟨rfl, hst1⟩ := hst
        subst hout
        simp only [insertEverywhere, List.cons_append, List.mem_cons, List.mem_map]
        exact Or.inr ⟨s1 ++ a :: t, ih.2 ⟨s1, t, hst1, rfl⟩, rfl⟩

/-- `perms` enumerates exactly the permutations. -/
lemma mem_perms_iff : ∀ {l out : List α}, out ∈ perms l ↔ List.Perm out l := by
  intro l
  induction l with
  | nil =>
    intro out
    simp [perms, List.perm_nil]
  | cons a l ih =>
    intro out
    constructor
    · intro h
      simp only [perms, List.mem_flatten, List.mem_map] at h
      obtain ⟨_, ⟨p, hp, rfl⟩, hout⟩ := h
      obtain ⟨s, t, rfl, rfl⟩ := mem_insertEverywhere.1 hout
      exact List.perm_middle.trans ((ih.1 hp).cons a)
    · intro h
      have ha : a ∈ out := h.mem_iff.2 (List.mem_cons_self a l)
      obtain ⟨s, t, rfl⟩ := List.append_of_mem ha
      have hst : List.Perm (s ++ t) l :=
        (List.perm_cons a).1 (List.perm_middle.symm.trans h)
      simp only [perms, List.mem_flatten, List.mem_map]
      exact ⟨insertEverywhere a (s ++ t), ⟨s ++ t, ih.2 hst, rfl⟩,
        mem_insertEverywhere.2 ⟨s, t, rfl, rfl⟩⟩

/-- Every output the sort model admits is a permutation of its input. -/
lemma pandas_sort_values_perm [DecidableEq α] (key : α → Option ℚ)
    (input out : List α) (h : out ∈ pandas_sort_values key input) :
    List.Perm out input := by
  unfold pandas_sort_values at h
  exact mem_perms_iff.1 (List.mem_of_mem_filter h)

/-- Counterexample to claim C4 as stated: the outputs admitted by the
code's sort (pandas default `kind="quicksort"`, which pandas documents as
not stable) include one in which two rows with EQUAL present market caps
do not retain their original relative order. -/
theorem pandas_sort_tie_cex :
    [((2 : ℕ), some (5 : ℚ)), (1, some 5)] ∈
      pandas_sort_values Prod.snd [(1, some 5), (2, some 5)] ∧
    [((2 : ℕ), some (5 : ℚ)), (1, some 5)] ≠ [(1, some 5), (2, some 5)] := by
  exact ⟨by decide, by decide⟩

/-- Claim C4 (amended: no stability guarantee among EQUAL present values;
everything else as claimed): on market caps [5, absent, 10, absent, 3]
(with all present values distinct) the admitted output is unique — present
rows first in descending order [10, 5, 3], then the absent rows in their
original relative order. -/
theorem pandas_sort_example :
    pandas_sort_values Prod.snd
      [((1 : ℕ), some (5 : ℚ)), (2, none), (3, some 10), (4, none), (5, some 3)]
      = [[(3, some 10), (1, some 5), (5, some 3), (2, none), (4, none)]] := by
  decide

/-- Counterexample to claim C5 as stated: a single extra upstream failure
in one entity's sub-fetches CAN change another entity's reported fields.
`envB` differs from `envA` only in Adidas' currency-prefetch call
failing, yet Nike's reported USD market cap changes from
1,000,000 × 1.1 to 1,000,000 × 1: without Adidas' prefetched "EUR" the
code never requests the EUR rate, and Nike's EUR market cap silently
passes through at rate 1. -/
theorem fetch_rows_interference_cex :
    ((fetch_rows envA fxEnvC id).1.map Row.marketCapUSD)[0]?
        = some (some (1000000 * (11 / 10))) ∧
    ((fetch_rows envB fxEnvC id).1.map Row.marketCapUSD)[0]?
        = some (some (1000000 * 1)) ∧
    (1000000 : ℚ) * (11 / 10) = 1100000 ∧
    (1000000 : ℚ) * 1 = 1000000 ∧
    (1100000 : ℚ) ≠ 1000000 := by
  exact ⟨rfl, rfl, by norm_num, by norm_num, by norm_num⟩

/-- Claim C5 (amended: the pipeline is total — one row per roster entry
whatever the upstream failures — and an entity's row is unchanged by
failures in other entities' sub-fetches other than the currency prefetch,
whose outcomes feed the shared FX table): for any two environments with
identical prefetch outcomes that agree on entity `s`, the row of every
roster position carrying ticker `s` is identical. -/
theorem fetch_rows_isolated :
    ∀ (env1 env2 : String → EntityEnv) (fxEnv : String → Option ℚ)
      (clock : ℕ → ℕ) (s : String) (i : ℕ),
      (fetch_rows env1 fxEnv clock).1.length = COMPANIES.length ∧
      ((∀ t, (env1 t).prefetchInfo = (env2 t).prefetchInfo) →
        env1 s = env2 s →
        (COMPANIES.map (fun p => clean_ticker p.2))[i]? = some s →
        (fetch_rows env1 fxEnv clock).1[i]? = (fetch_rows env2 fxEnv clock).1[i]?) := by
  intro env1 env2 fxEnv clock s i
  constructor
  · simp [fetch_rows, assemble, entries_of, prefetch_currs]
  · intro h1 h2 hi
    have hfun : (fun t => prefetch_currency (env1 t).prefetchInfo)
        = (fun t => prefetch_currency (env2 t).prefetchInfo) :=
      funext fun t => by rw [h1 t]
    have hcurrs : prefetch_currs env1 = prefetch_currs env2 := by
      unfold prefetch_currs
      rw [hfun]
    obtain ⟨p, hp, hps⟩ : ∃ p, COMPANIES[i]? = some p ∧ clean_ticker p.2 = s := by
      rw [List.getElem?_map] at hi
      cases hc : COMPANIES[i]? with
      | none => rw [hc] at hi; exact absurd hi (by simp)
      | some q =>
        rw [hc] at hi
        simp only [Option.map_some', Option.some.injEq] at hi
        exact ⟨q, rfl, hi⟩
    have hlt : i < COMPANIES.length := by
      have := List.getElem?_eq_some.1 hp
      exact this.1
    have hltc : i < (prefetch_currs env1).length := by
      simpa [prefetch_currs] using hlt
    have hc : (prefetch_currs env1)[i]? = some ((prefetch_currs env1)[i]) :=
      List.getElem?_eq_getElem hltc
    have hzip : ((COMPANIES.zip (prefetch_currs env1)))[i]?
        = some (p, (prefetch_currs env1)[i]) :=
      List.getElem?_zip_eq_some.2 ⟨hp, hc⟩
    have hz : (((COMPANIES.zip (prefetch_currs env1)).enum))[i]?
        = some (i, p, (prefetch_currs env1)[i]) := by
      rw [List.getElem?_enum, hzip]
      rfl
    simp only [fetch_rows]
    rw [← hcurrs]
    simp only [assemble, entries_of, List.getElem?_map, hz, Option.map_some']
    rw [hps, h2]

/-- Witness for C5 (amended): applied to two identical all-failing
environments at Nike's roster position. -/
theorem fetch_rows_isolated_witness :
    (fetch_rows (fun _ => failEnt) (fun _ => none) id).1.length = COMPANIES.length ∧
    (fetch_rows (fun _ => failEnt) (fun _ => none) id).1[0]?
      = (fetch_rows (fun _ => failEnt) (fun _ => none) id).1[0]? := by
  exact ⟨(fetch_rows_isolated (fun _ => failEnt) (fun _ => failEnt)
      (fun _ => none) id "NKE" 0).1,
    (fetch_rows_isolated (fun _ => failEnt) (fun _ => failEnt)
      (fun _ => none) id "NKE" 0).2 (fun t => rfl) rfl (by decide)⟩

/-- The row timestamps of one assembly run are `clock 0, clock 1, ...`,
one per roster entry actually zipped. -/
lemma assemble_timestamps (env : String → EntityEnv) (fx : List (String × ℚ))
    (currs : List String) (clock : ℕ → ℕ) :
    ((assemble env fx currs clock).1).map Row.updatedUTC
      = (List.range (min COMPANIES.length currs.length)).map clock := by
  simp only [assemble, entries_of, List.map_map]
  have hf : (Row.updatedUTC ∘ Prod.fst ∘ (fun q : ℕ × ((String × String) × String) =>
      build_entry q.2.1.1 (clean_ticker q.2.1.2) q.2.2
        (env (clean_ticker q.2.1.2)) fx (clock q.1)))
      = (clock ∘ Prod.fst) := rfl
  rw [hf, ← List.map_map, List.enum_map_fst, List.length_zip]

/-- A read that hits an unexpired cache entry returns it unchanged. -/
lemma fetch_data_cached_hit (env : String → EntityEnv)
    (fxEnv : String → Option ℚ) (c : Caches) (t t0 : ℕ)
    (v : List Row × List String) (h : c.report = some (v, t0))
    (ht : t < t0 + TTL) : fetch_data_cached env fxEnv c t = (v, c) := by
  unfold fetch_data_cached
  rw [h]
  simp only
  rw [if_pos ht]

/-- A read on an empty report cache computes. -/
lemma fetch_data_cached_miss (env : String → EntityEnv)
    (fxEnv : String → Option ℚ) (c : Caches) (t : ℕ) (h : c.report = none) :
    fetch_data_cached env fxEnv c t = fetch_data_compute env fxEnv c t := by
  unfold fetch_data_cached
  rw [h]

/-- Claim C8: starting from an empty report cache, a read at `t1`
followed (before TTL expiry) by a read at `t2` returns the identical
cached result, timestamps included; `force_refresh` empties both caches,
and a post-refresh read at `t2 > t1` recomputes — its per-row timestamps
differ from the first read's. -/
theorem cache_refresh_spec :
    ∀ (env : String → EntityEnv) (fxEnv : String → Option ℚ) (c : Caches)
      (t1 t2 : ℕ), c.report = none → t1 < t2 → t2 < t1 + TTL →
      (fetch_data_cached env fxEnv (fetch_data_cached env fxEnv c t1).2 t2).1
        = (fetch_data_cached env fxEnv c t1).1 ∧
      (force_refresh (fetch_data_cached env fxEnv c t1).2).report = none ∧
      (force_refresh (fetch_data_cached env fxEnv c t1).2).fx = [] ∧
      ((fetch_data_cached env fxEnv
          (force_refresh (fetch_data_cached env fxEnv c t1).2) t2).1).1.map
          Row.updatedUTC
        ≠ ((fetch_data_cached env fxEnv c t1).1).1.map Row.updatedUTC := by
  intro env fxEnv c t1 t2 hrep ht12 httl
  have h1 : fetch_data_cached env fxEnv c t1 = fetch_data_compute env fxEnv c t1 :=
    fetch_data_cached_miss env fxEnv c t1 hrep
  have hstore : (fetch_data_cached env fxEnv c t1).2.report
      = some ((fetch_data_cached env fxEnv c t1).1, t1) := by
    rw [h1]
    rfl
  have hminlen : min COMPANIES.length (prefetch_currs env).length
      = COMPANIES.length := by
    simp [prefetch_currs]
  have hts1 : ((fetch_data_cached env fxEnv c t1).1).1.map Row.updatedUTC
      = (List.range COMPANIES.length).map (fun i => t1 + i) := by
    rw [h1]
    show ((assemble env _ (prefetch_currs env) (fun i => t1 + i)).1).map
      Row.updatedUTC = _
    rw [assemble_timestamps, hminlen]
  refine ⟨?_, rfl, rfl, ?_⟩
  · rw [fetch_data_cached_hit env fxEnv _ t2 t1
      (fetch_data_cached env fxEnv c t1).1 hstore httl]
  · have h2 : fetch_data_cached env fxEnv
        (force_refresh (fetch_data_cached env fxEnv c t1).2) t2
        = fetch_data_compute env fxEnv ⟨none, []⟩ t2 :=
      fetch_data_cached_miss env fxEnv _ t2 rfl
    have hts2 : ((fetch_data_cached env fxEnv
        (force_refresh (fetch_data_cached env fxEnv c t1).2) t2).1).1.map
        Row.updatedUTC = (List.range COMPANIES.length).map (fun i => t2 + i) := by
      rw [h2]
      show ((assemble env _ (prefetch_currs env) (fun i => t2 + i)).1).map
        Row.updatedUTC = _
      rw [assemble_timestamps, hminlen]
    rw [hts1, hts2]
    intro heq
    have h0 := congrArg (fun l => l[0]?) heq
    have hpos : 0 < COMPANIES.length := by decide
    simp only [List.getElem?_map, List.getElem?_range hpos, Option.map_some',
      Option.some.injEq] at h0
    omega

/-- Witness for C8: the empty cache, all-failing upstream, reads at times
0 and 1. -/
theorem cache_refresh_spec_witness :
    (fetch_data_cached (fun _ => failEnt) (fun _ => none)
        (fetch_data_cached (fun _ => failEnt) (fun _ => none) ⟨none, []⟩ 0).2 1).1
      = (fetch_data_cached (fun _ => failEnt) (fun _ => none) ⟨none, []⟩ 0).1 ∧
    ((fetch_data_cached (fun _ => failEnt) (fun _ => none)
        (force_refresh
          (fetch_data_cached (fun _ => failEnt) (fun _ => none) ⟨none, []⟩ 0).2) 1).1).1.map
        Row.updatedUTC
      ≠ ((fetch_data_cached (fun _ => failEnt) (fun _ => none) ⟨none, []⟩ 0).1).1.map
        Row.updatedUTC := by
  exact ⟨(cache_refresh_spec (fun _ => failEnt) (fun _ => none) ⟨none, []⟩ 0 1
      rfl (by decide) (by decide)).1,
    (cache_refresh_spec (fun _ => failEnt) (fun _ => none) ⟨none, []⟩ 0 1
      rfl (by decide) (by decide)).2.2.2⟩

